import Mathlib

/-!
Shallow embedding of the `tasks` repository (reactive node graphs plus an
LLM tool-calling agent loop) and proofs about its specified behaviour.

Each definition mirrors one function of the TypeScript source:
  * `src/lib/tasks/nodes/memory.ts`     — conversation store
  * `src/lib/tasks/nodes/toolRouter.ts` — tool dispatcher
  * `src/lib/tasks/nodes/llm.ts`        — protocol adapter and agent loop
  * `src/lib/EventEmitter.ts`           — event channel
  * `src/lib/tasks/index.ts`            — graph compiler (`compile`)
  * `src/lib/tasks/nodes/input.ts` and `src/lib/streams/readStream.ts`

JavaScript-specific behaviour (truthiness of `""` and `0`, `typeof x ===
"object"` holding for arrays, object spread copying field values) is
modelled explicitly where the source relies on it.
-/

namespace TasksModel

/-- JavaScript values passed to and returned from tool handlers.  Only the
structure needed by `JSON.stringify` is modelled. -/
inductive Json where
  | str (s : String)
  | num (n : Int)
  | bool (b : Bool)
  | null
  | arr (items : List Json)
  | obj (fields : List (String × Json))
deriving Inhabited

mutual

/-- Decidable equality for `Json` (written by hand because the automatic
derivation does not handle the nested lists). -/
def Json.decEq : (a b : Json) → Decidable (a = b)
  | .str s, .str t =>
      if h : s = t then isTrue (by rw [h])
      else isFalse (fun hh => by cases hh; exact h rfl)
  | .num m, .num n =>
      if h : m = n then isTrue (by rw [h])
      else isFalse (fun hh => by cases hh; exact h rfl)
  | .bool a, .bool b =>
      if h : a = b then isTrue (by rw [h])
      else isFalse (fun hh => by cases hh; exact h rfl)
  | .null, .null => isTrue rfl
  | .arr xs, .arr ys =>
      match Json.decEqList xs ys with
      | isTrue h => isTrue (by rw [h])
      | isFalse h => isFalse (fun hh => by cases hh; exact h rfl)
  | .obj xs, .obj ys =>
      match Json.decEqFields xs ys with
      | isTrue h => isTrue (by rw [h])
      | isFalse h => isFalse (fun hh => by cases hh; exact h rfl)
  | .str _, .num _ => isFalse (fun h => nomatch h)
  | .str _, .bool _ => isFalse (fun h => nomatch h)
  | .str _, .null => isFalse (fun h => nomatch h)
  | .str _, .arr _ => isFalse (fun h => nomatch h)
  | .str _, .obj _ => isFalse (fun h => nomatch h)
  | .num _, .str _ => isFalse (fun h => nomatch h)
  | .num _, .bool _ => isFalse (fun h => nomatch h)
  | .num _, .null => isFalse (fun h => nomatch h)
  | .num _, .arr _ => isFalse (fun h => nomatch h)
  | .num _, .obj _ => isFalse (fun h => nomatch h)
  | .bool _, .str _ => isFalse (fun h => nomatch h)
  | .bool _, .num _ => isFalse (fun h => nomatch h)
  | .bool _, .null => isFalse (fun h => nomatch h)
  | .bool _, .arr _ => isFalse (fun h => nomatch h)
  | .bool _, .obj _ => isFalse (fun h => nomatch h)
  | .null, .str _ => isFalse (fun h => nomatch h)
  | .null, .num _ => isFalse (fun h => nomatch h)
  | .null, .bool _ => isFalse (fun h => nomatch h)
  | .null, .arr _ => isFalse (fun h => nomatch h)
  | .null, .obj _ => isFalse (fun h => nomatch h)
  | .arr _, .str _ => isFalse (fun h => nomatch h)
  | .arr _, .num _ => isFalse (fun h => nomatch h)
  | .arr _, .bool _ => isFalse (fun h => nomatch h)
  | .arr _, .null => isFalse (fun h => nomatch h)
  | .arr _, .obj _ => isFalse (fun h => nomatch h)
  | .obj _, .str _ => isFalse (fun h => nomatch h)
  | .obj _, .num _ => isFalse (fun h => nomatch h)
  | .obj _, .bool _ => isFalse (fun h => nomatch h)
  | .obj _, .null => isFalse (fun h => nomatch h)
  | .obj _, .arr _ => isFalse (fun h => nomatch h)

/-- Decidable equality of `Json` lists, mutually with `Json.decEq`. -/
def Json.decEqList : (a b : List Json) → Decidable (a = b)
  | [], [] => isTrue rfl
  | [], _ :: _ => isFalse (fun h => nomatch h)
  | _ :: _, [] => isFalse (fun h => nomatch h)
  | x :: xs, y :: ys =>
      match Json.decEq x y with
      | isFalse h => isFalse (fun hh => by cases hh; exact h rfl)
      | isTrue h1 =>
          match Json.decEqList xs ys with
          | isTrue h2 => isTrue (by rw [h1, h2])
          | isFalse h => isFalse (fun hh => by cases hh; exact h rfl)

/-- Decidable equality of `Json` object field lists, mutually with
`Json.decEq`. -/
def Json.decEqFields : (a b : List (String × Json)) → Decidable (a = b)
  | [], [] => isTrue rfl
  | [], _ :: _ => isFalse (fun h => nomatch h)
  | _ :: _, [] => isFalse (fun h => nomatch h)
  | (k, v) :: xs, (k2, v2) :: ys =>
      if hk : k = k2 then
        match Json.decEq v v2 with
        | isFalse h => isFalse (fun hh => by cases hh; exact h rfl)
        | isTrue hv =>
            match Json.decEqFields xs ys with
            | isTrue h2 => isTrue (by rw [hk, hv, h2])
            | isFalse h => isFalse (fun hh => by cases hh; exact h rfl)
      else isFalse (fun hh => by cases hh; exact hk rfl)

end

instance : DecidableEq Json := Json.decEq

mutual

/-- Model of the JavaScript builtin `JSON.stringify` (an external
collaborator of the source; the source calls it on handler return values
and on tool-call inputs). -/
def Json.stringify : Json → String
  | .str s => "\"" ++ s ++ "\""
  | .num n => toString n
  | .bool b => if b then "true" else "false"
  | .null => "null"
  | .arr items => "[" ++ String.intercalate "," (Json.stringifyList items) ++ "]"
  | .obj fields =>
      "\x7b" ++ String.intercalate "," (Json.stringifyFields fields) ++ "\x7d"

/-- Serialization of the elements of a `Json` array. -/
def Json.stringifyList : List Json → List String
  | [] => []
  | j :: rest => Json.stringify j :: Json.stringifyList rest

/-- Serialization of the fields of a `Json` object. -/
def Json.stringifyFields : List (String × Json) → List String
  | [] => []
  | f :: rest => ("\"" ++ f.1 ++ "\":" ++ Json.stringify f.2) :: Json.stringifyFields rest

end

/-- Message roles (`memory.ts`, type `Message`). -/
inductive Role where
  | user
  | assistant
  | system
deriving DecidableEq, Inhabited, BEq

/-- Content blocks (`memory.ts`, type `ContentBlock`).  `is_error` is
optional in the source, hence `Option Bool`. -/
inductive ContentBlock where
  | text (text : String)
  | tool_use (id : String) (name : String) (input : Json)
  | tool_result (tool_use_id : String) (content : String) (is_error : Option Bool)
deriving DecidableEq, Inhabited

/-- Message content is either a plain string or a list of content blocks
(`memory.ts`, type `Message`). -/
inductive MessageContent where
  | str (s : String)
  | blocks (bs : List ContentBlock)
deriving DecidableEq, Inhabited

/-- A conversation message (`memory.ts`, type `Message`). -/
structure Message where
  role : Role
  content : MessageContent
deriving DecidableEq, Inhabited

/-- Configuration of the memory node (`memory.ts`, type `MemoryConfig`).
Both fields are optional in the source. -/
structure MemoryConfig where
  maxMessages : Option Nat
  systemPrompt : Option String
deriving DecidableEq, Inhabited

/-- JavaScript truthiness of `set.systemPrompt`: the constructor of
`memory.ts` runs `if (set.systemPrompt)` — the empty string is falsy, so
only a non-empty configured prompt counts as configured. -/
def configuredSystemPrompt (set : MemoryConfig) : Option String :=
  match set.systemPrompt with
  | some sp => if sp = "" then none else some sp
  | none => none

/-- Initial message list of a memory node (`memory.ts` lines 26–31): the
configured system prompt, when truthy, is pushed as a system message. -/
def memoryInit (set : MemoryConfig) : List Message :=
  match configuredSystemPrompt set with
  | some sp => [⟨Role.system, .str sp⟩]
  | none => []

/-- Model of `Array.prototype.splice(start, deleteCount)` restricted to
deletion (the only use in the source). -/
def splice (l : List α) (start count : Nat) : List α :=
  l.take start ++ l.drop (start + count)

/-- Whether `messages[0]?.role === "system"` (`memory.ts` line 87). -/
def hasSystemFirst (messages : List Message) : Bool :=
  match messages.head? with
  | some m => m.role == Role.system
  | none => false

/-- `addMessage` of `memory.ts` (lines 82–95): push the message, then, when
`set.maxMessages` is truthy (non-zero) and exceeded, delete the oldest
messages starting after a leading system message. -/
def addMessage (set : MemoryConfig) (messages : List Message) (message : Message) :
    List Message :=
  let messages := messages ++ [message]
  match set.maxMessages with
  | some mx =>
      if mx ≠ 0 ∧ mx < messages.length then
        let startIndex := if hasSystemFirst messages then 1 else 0
        let excess := messages.length - mx
        splice messages startIndex excess
      else messages
  | none => messages

/-- A sequence of `addMessage` calls applied in order. -/
def addMessages (set : MemoryConfig) (init : List Message) (adds : List Message) :
    List Message :=
  adds.foldl (addMessage set) init

/-- `clear` of `memory.ts` (lines 97–105): empty the list, re-inserting the
previous first message when its role is `system`. -/
def clear (messages : List Message) : List Message :=
  match messages.head? with
  | some m => if m.role = Role.system then [m] else []
  | none => []

/-- A model-issued tool invocation request (`llm.ts`, type `ToolCall`). -/
structure ToolCall where
  id : String
  name : String
  input : Json
deriving DecidableEq, Inhabited

/-- The result of one dispatched tool call (`toolRouter.ts`, type
`ToolResult`).  `is_error` is optional in the source. -/
structure ToolResult where
  tool_use_id : String
  content : String
  is_error : Option Bool
deriving DecidableEq, Inhabited

/-- A tool handler (`toolRouter.ts`, type `ToolHandler`): it either returns
a value or throws, and the thrown error carries a message. -/
def ToolHandler : Type := Json → Except String Json

/-- The body of the `toolCalls.map` callback shared verbatim by
`toolRouter.ts` (lines 95–119) and `executeTools` of the agent loop in
`llm.ts` (lines 772–796): unknown tool names resolve to an error result
without invocation, a throwing handler resolves to an error result carrying
its message, and a successful handler resolves to its return value as-is
when it is a string and its JSON serialization otherwise. -/
def dispatchOne (tools : String → Option ToolHandler) (toolCall : ToolCall) : ToolResult :=
  match tools toolCall.name with
  | none =>
      { tool_use_id := toolCall.id
        content := "Error: Tool \"" ++ toolCall.name ++ "\" not found"
        is_error := some true }
  | some handler =>
      match handler toolCall.input with
      | .ok result =>
          { tool_use_id := toolCall.id
            content := match result with
              | .str s => s
              | r => Json.stringify r
            is_error := none }
      | .error msg =>
          { tool_use_id := toolCall.id
            content := "Error: " ++ msg
            is_error := some true }

/-- The value of `Promise.all(toolCalls.map(...))` in `toolRouter.ts` /
`executeTools`: one result per call, in input order. -/
def dispatch (tools : String → Option ToolHandler) (toolCalls : List ToolCall) :
    List ToolResult :=
  toolCalls.map (dispatchOne tools)

/-- Operational model of the `Promise.all` fan-out/fan-in join: an array of
`n` pending slots is allocated, and as each call `i` completes (in the order
given by `order`, which lists indices by completion time) its slot is
filled.  The produced array is keyed by input index, not completion time. -/
def promiseAllJoin (n : Nat) (f : Nat → α) (order : List Nat) : List (Option α) :=
  order.foldl (fun acc i => acc.set i (some (f i))) (List.replicate n none)

/-- Tool dispatch under an explicit completion schedule: handler `i`
completes at the position of `i` in `order`. -/
def dispatchScheduled (tools : String → Option ToolHandler) (toolCalls : List ToolCall)
    (order : List Nat) : List (Option ToolResult) :=
  promiseAllJoin toolCalls.length
    (fun i => dispatchOne tools (toolCalls.getD i default)) order

/-- An execution trace of the event channel: which handlers ran, registered
under which event name, with which payload, plus what `console.error`
logged.  Handlers are named by numeric ids; `beh h d` tells whether handler
`h` applied to payload `d` returns normally (`none`) or throws (`some
message`). -/
structure EmitTrace where
  ran : List (String × Nat × String)
  consoleLogged : List String
deriving DecidableEq, Inhabited

/-- The recursive `emit('error', error)` call inside the catch block of
`EventEmitter.ts` `emit` (lines 19–33): because the event is `'error'`,
every error handler runs, and a handler that itself throws is only logged
via `console.error`. -/
def runErrorHandlers (ls : String → List Nat) (beh : Nat → String → Option String)
    (err : String) : EmitTrace :=
  { ran := (ls "error").map (fun h => ("error", h, err))
    consoleLogged := (ls "error").filterMap (fun h => beh h err) }

/-- `emit` of `EventEmitter.ts` (lines 19–33).  Each registered handler for
the event runs inside a try/catch: a throw from a non-`'error'` event is
re-published on the `'error'` event, while a throw from an `'error'`
handler is logged via `console.error` and never re-raised. -/
def emitEvent (ls : String → List Nat) (beh : Nat → String → Option String)
    (event : String) (data : String) : EmitTrace :=
  if event = "error" then
    { ran := (ls event).map (fun h => (event, h, data))
      consoleLogged := (ls event).filterMap (fun h => beh h data) }
  else
    (ls event).foldl
      (fun tr h =>
        match beh h data with
        | none => { tr with ran := tr.ran ++ [(event, h, data)] }
        | some err =>
            let etr := runErrorHandlers ls beh err
            { ran := tr.ran ++ (event, h, data) :: etr.ran
              consoleLogged := tr.consoleLogged ++ etr.consoleLogged })
      ⟨[], []⟩

/-- The inline `emit` of the node objects (`memory.ts` lines 73–77, and
identically `llm.ts`, `toolRouter.ts`, `config.ts`): handlers run in order
with NO try/catch, so the first throw propagates to the caller and the
remaining handlers never run.  Returns the handlers that ran (with their
payload) and the propagated exception, if any. -/
def nodeEmitRun (beh : Nat → String → Option String) (data : String) :
    List Nat → List (Nat × String) × Option String
  | [] => ([], none)
  | h :: rest =>
      match beh h data with
      | none =>
          let r := nodeEmitRun beh data rest
          ((h, data) :: r.1, r.2)
      | some e => ([(h, data)], some e)

/-- `node.emit(event, data)` for the inline node emitters (`memory.ts`
lines 73–77). -/
def nodeEmit (ls : String → List Nat) (beh : Nat → String → Option String)
    (event : String) (data : String) : List (Nat × String) × Option String :=
  nodeEmitRun beh data (ls event)

/-- The wire role string of a canonical role: the canonical role strings
coincide with both providers' role strings. -/
def roleToString : Role → String
  | .user => "user"
  | .assistant => "assistant"
  | .system => "system"

/-- One `tool_calls` entry of the OpenAI wire format (`llm.ts`, type
`OpenAIMessage`).  The constant `type: "function"` tag is omitted. -/
structure OpenAIToolCall where
  id : String
  function_name : String
  function_arguments : String
deriving DecidableEq, Inhabited

/-- A message of the OpenAI wire format (`llm.ts`, type `OpenAIMessage`).
`content` is `string | null`; `tool_calls` and `tool_call_id` are optional
fields. -/
structure OpenAIMessage where
  role : String
  content : Option String
  tool_calls : Option (List OpenAIToolCall)
  tool_call_id : Option String
deriving DecidableEq, Inhabited

/-- The text of a `text` content block, if any. -/
def textOfBlock : ContentBlock → Option String
  | .text t => some t
  | _ => none

/-- `content.filter(b => b.type === "text").map(b => b.text).join("\n")`,
the text-extraction idiom used throughout `llm.ts`. -/
def extractText (content : List ContentBlock) : String :=
  String.intercalate "\n" (content.filterMap textOfBlock)

/-- `convertToOpenAIMessages` of `llm.ts` (lines 90–135): plain-string
messages pass through with their role; block messages are flattened into
the OpenAI role/content/tool_calls shape.  `join("\n") || null` makes an
empty joined string into `null`. -/
def convertToOpenAIMessages (messages : List Message) : List OpenAIMessage :=
  messages.flatMap fun msg =>
    match msg.content with
    | .str s => [⟨roleToString msg.role, some s, none, none⟩]
    | .blocks bs =>
        let textBlocks := bs.filterMap textOfBlock
        let toolUseBlocks := bs.filterMap fun b =>
          match b with
          | .tool_use i n inp => some (i, n, inp)
          | _ => none
        let toolResultBlocks := bs.filterMap fun b =>
          match b with
          | .tool_result tid c e => some (tid, c, e)
          | _ => none
        match msg.role with
        | .assistant =>
            let joined := String.intercalate "\n" textBlocks
            [{ role := "assistant"
               content := if joined = "" then none else some joined
               tool_calls :=
                 if toolUseBlocks.length > 0 then
                   some (toolUseBlocks.map fun b => ⟨b.1, b.2.1, Json.stringify b.2.2⟩)
                 else none
               tool_call_id := none }]
        | .user =>
            (toolResultBlocks.map fun b =>
              ({ role := "tool", content := some b.2.1, tool_calls := none
                 tool_call_id := some b.1 } : OpenAIMessage)) ++
            (if textBlocks.length > 0 then
               [⟨"user", some (String.intercalate "\n" textBlocks), none, none⟩]
             else [])
        | .system =>
            [⟨"system", some (String.intercalate "\n" textBlocks), none, none⟩]

/-- The message of the single choice of an OpenAI response (`llm.ts`, type
`OpenAIResponse`). -/
structure OpenAIResponseMessage where
  content : Option String
  tool_calls : Option (List OpenAIToolCall)
deriving DecidableEq, Inhabited

/-- One choice of an OpenAI response (`llm.ts`, type `OpenAIResponse`). -/
structure OpenAIChoice where
  message : OpenAIResponseMessage
  finish_reason : String
deriving DecidableEq, Inhabited

/-- An OpenAI response body; only the fields read by the conversion are
modelled. -/
structure OpenAIResponse where
  choices : List OpenAIChoice
deriving DecidableEq, Inhabited

/-- The canonical parse of a provider response: content blocks, requested
tool calls, and the normalized stop reason. -/
structure ParsedResponse where
  content : List ContentBlock
  toolCalls : List ToolCall
  stopReason : String
deriving DecidableEq, Inhabited

/-- `convertOpenAIResponseToAnthropic` of `llm.ts` (lines 137–168).
`jsonParse` abstracts the JavaScript builtin `JSON.parse` applied to the
`function.arguments` strings.  Reading `choices[0]` of an empty `choices`
array would crash in the source, modelled as an exception. -/
def convertOpenAIResponseToAnthropic (jsonParse : String → Json)
    (response : OpenAIResponse) : Except String ParsedResponse :=
  match response.choices.head? with
  | none => .error "TypeError: cannot read properties of undefined"
  | some choice =>
      let textContent : List ContentBlock :=
        match choice.message.content with
        | some s => if s = "" then [] else [.text s]
        | none => []
      let toolUses : List ContentBlock :=
        match choice.message.tool_calls with
        | some tcs => tcs.map fun tc =>
            .tool_use tc.id tc.function_name (jsonParse tc.function_arguments)
        | none => []
      let toolCalls : List ToolCall :=
        match choice.message.tool_calls with
        | some tcs => tcs.map fun tc =>
            ⟨tc.id, tc.function_name, jsonParse tc.function_arguments⟩
        | none => []
      .ok
        { content := textContent ++ toolUses
          toolCalls := toolCalls
          stopReason :=
            if choice.finish_reason = "tool_calls" then "tool_use"
            else choice.finish_reason }

/-- The string extracted from a system message by the filter callback of
`callAnthropic` (`llm.ts` lines 267–273 and 602–608): a plain string
content passes through, block content is mapped to `b.text || ""` per
block (non-text blocks give `""`) and joined with newlines. -/
def extractSystemText : MessageContent → String
  | .str s => s
  | .blocks bs =>
      String.intercalate "\n" (bs.map fun b => (textOfBlock b).getD "")

/-- The `messages.filter` pass of `callAnthropic` (`llm.ts` lines 266–273):
every system-role message, at any position, is removed from the array, and
the mutable `systemPrompt` variable ends up holding the extracted text of
the last system message encountered (if any). -/
def anthropicFilterMessages (messages : List Message) :
    List Message × Option String :=
  messages.foldl
    (fun acc m =>
      if m.role = Role.system then (acc.1, some (extractSystemText m.content))
      else (acc.1 ++ [m], acc.2))
    ([], none)

/-- The top-level `system` field of the Anthropic request body
(`llm.ts` lines 281–283): `if (systemPrompt) requestBody.system = ...` —
an extracted empty string is falsy, so the field is then omitted. -/
def anthropicSystemField (messages : List Message) : Option String :=
  match (anthropicFilterMessages messages).2 with
  | some s => if s = "" then none else some s
  | none => none

/-- The `(messages, system)` pair of the Anthropic-style request body built
by `callAnthropic` (`llm.ts` lines 266–287 and 600–622). -/
def callAnthropicRequest (messages : List Message) :
    List Message × Option String :=
  ((anthropicFilterMessages messages).1, anthropicSystemField messages)

/-- The inbound parse of an Anthropic response (`llm.ts` lines 304–328):
the content blocks pass through unchanged, tool-use blocks populate the
tool-call list, and `stop_reason` passes through unchanged. -/
def anthropicParse (content : List ContentBlock) (stop_reason : String) :
    ParsedResponse :=
  { content := content
    toolCalls := content.filterMap fun b =>
      match b with
      | .tool_use i n inp => some ⟨i, n, inp⟩
      | _ => none
    stopReason := stop_reason }

/-- What one LLM call of the agent loop returns (`llm.ts`, the result type
of `callLLM`). -/
structure LLMResponse where
  content : List ContentBlock
  toolCalls : List ToolCall
  stopReason : String
deriving DecidableEq, Inhabited

/-- The tool-result content blocks appended to the conversation after a
dispatch batch (`llm.ts` lines 557–562). -/
def toolResultBlocks (results : List ToolResult) : List ContentBlock :=
  results.map fun r => .tool_result r.tool_use_id r.content r.is_error

/-- How the agent loop terminates: the `data` event on a non-`tool_use`
stop (carrying the joined text, the full message list, the iteration count
and the stop reason — `llm.ts` lines 543–549), or the `error` event when
the `while` guard exhausts (`llm.ts` line 574). -/
inductive LoopResult where
  | success (response : String) (messages : List Message) (iterations : Nat)
      (stopReason : String)
  | maxIterationsError (message : String)
deriving DecidableEq, Inhabited

/-- The outcome of one run of the agent loop, together with how many model
calls were made. -/
structure AgentOutcome where
  result : LoopResult
  modelCalls : Nat
deriving DecidableEq, Inhabited

/-- The `while (iteration < config.maxIterations)` loop of the agent-loop
input handler (`llm.ts` lines 516–577).  `model calls msgs` abstracts the
`callLLM` network round trip, indexed by the number of prior calls.
`remaining` is `maxIterations - iteration`; each pass increments the
iteration counter, makes one model call, appends the assistant message,
and either finishes (stop reason not `tool_use` or no tool calls) or
dispatches the tools, appends their results as one user message and loops.
When the fuel runs out the loop emits the iteration-limit error. -/
def agentLoopAux (model : Nat → List Message → LLMResponse)
    (tools : String → Option ToolHandler) (maxIterations : Nat) :
    Nat → Nat → Nat → List Message → AgentOutcome
  | 0, _, calls, _ =>
      ⟨.maxIterationsError
          ("Max iterations (" ++ toString maxIterations ++ ") reached"), calls⟩
  | remaining + 1, iteration, calls, msgs =>
      let iteration := iteration + 1
      let llmResponse := model calls msgs
      let msgs := msgs ++ [⟨Role.assistant, .blocks llmResponse.content⟩]
      if llmResponse.stopReason ≠ "tool_use" ∨ llmResponse.toolCalls = [] then
        ⟨.success (extractText llmResponse.content) msgs iteration
            llmResponse.stopReason, calls + 1⟩
      else
        let toolResults := dispatch tools llmResponse.toolCalls
        let msgs := msgs ++ [⟨Role.user, .blocks (toolResultBlocks toolResults)⟩]
        agentLoopAux model tools maxIterations remaining iteration (calls + 1) msgs

/-- One run of the agentic loop from a given conversation state
(`llm.ts` lines 516–577, after the user message has been appended). -/
def agentLoopRun (model : Nat → List Message → LLMResponse)
    (tools : String → Option ToolHandler) (maxIterations : Nat)
    (msgs : List Message) : AgentOutcome :=
  agentLoopAux model tools maxIterations maxIterations 0 0 msgs

/-- `config.maxIterations` of the agent loop (`llm.ts` line 417):
`set.maxIterations || 10` — absent or zero falls back to 10. -/
def configMaxIterations (set : Option Nat) : Nat :=
  match set with
  | some n => if n = 0 then 10 else n
  | none => 10

/-- A named input edge of a node descriptor (`types.ts`, type
`NodeInput`). -/
structure NodeInput where
  node : String
  out : String
deriving DecidableEq, Inhabited

/-- The dynamic value of one entry of a descriptor's `in` map: a single
edge object or an array of edge objects (`types.ts`). -/
inductive InEntry where
  | single (e : NodeInput)
  | list (es : List NodeInput)
deriving DecidableEq, Inhabited

/-- JavaScript `typeof value === "object"`: true for plain objects AND for
arrays. -/
def isJsObject : InEntry → Bool := fun _ => true

/-- JavaScript `Array.isArray(value)`. -/
def isJsArray : InEntry → Bool
  | .list _ => true
  | .single _ => false

/-- `value.node`: defined for an edge object, `undefined` for an array. -/
def nodeField : InEntry → Option String
  | .single e => some e.node
  | .list _ => none

/-- `value.out`: defined for an edge object, `undefined` for an array. -/
def outField : InEntry → Option String
  | .single e => some e.out
  | .list _ => none

/-- The elements of an array-valued entry. -/
def entryEdges : InEntry → List NodeInput
  | .list es => es
  | .single _ => []

/-- The forwarding subscription created by `transformEvent` of
`src/lib/tasks/index.ts` (lines 233–250): the producer's value event sets
the consumer's input key from the producer's named output and invokes the
consumer's write. -/
structure Edge where
  consumer : String
  inputKey : String
  producer : String
  producerOut : Option String
deriving DecidableEq, Inhabited

/-- `transformEvent(acc, consumer, key, nodes[producer], out)`: when the
producer id is `undefined`, or no node carries it, `nodes[...]` is
`undefined` and `outputNode.pipe(s)` throws a `TypeError`; otherwise one
forwarding subscription is created. -/
def transformEvent (nodeIds : List String) (consumer inputKey : String)
    (producer : Option String) (producerOut : Option String) :
    Except String Edge :=
  match producer with
  | some p =>
      if nodeIds.contains p then
        .ok ⟨consumer, inputKey, p, producerOut⟩
      else .error "TypeError: Cannot read properties of undefined (reading pipe)"
  | none => .error "TypeError: Cannot read properties of undefined (reading pipe)"

/-- The wiring of one `in` entry by `compile` (`src/lib/tasks/index.ts`
lines 290–313).  The source runs `if (typeof value === "object")` — true
for arrays as well — and then `if (Array.isArray(value))`; a thrown
`TypeError` from either pass propagates out of `compile`. -/
def wireInEntry (nodeIds : List String) (consumer inputKey : String)
    (value : InEntry) : Except String (List Edge) := do
  let first ←
    if isJsObject value then do
      let e ← transformEvent nodeIds consumer inputKey (nodeField value) (outField value)
      pure [e]
    else pure []
  let second ←
    if isJsArray value then
      (entryEdges value).mapM fun v =>
        transformEvent nodeIds consumer inputKey (some v.node) (some v.out)
    else pure []
  pure (first ++ second)

/-- State of an `input()` node (`src/lib/tasks/nodes/input.ts` together
with `readStream.ts`, `src/unnamed/part_003`).  `readStream()` returns an
object `rs` whose `resume`/`pause` close over `rs` itself; `input` builds
`s = { ...rs, trigger }`, so `s.status` is a spread-time COPY of
`rs.status`, while the copied `resume`/`pause` methods keep mutating the
inner `rs` object. -/
structure InputNodeState where
  rsStatus : String
  status : String
deriving DecidableEq, Inhabited

/-- A fresh `input()` node: `rs.status` is `"paused"` and the spread copies
that value into `s.status`. -/
def inputNew : InputNodeState :=
  let rsStatus := "paused"
  ⟨rsStatus, rsStatus⟩

/-- `resume()` inherited from `readStream`: sets `rs.status`, not the
spread copy. -/
def inputResume (s : InputNodeState) : InputNodeState :=
  { s with rsStatus := "open" }

/-- `pause()` inherited from `readStream`: sets `rs.status`, not the spread
copy. -/
def inputPause (s : InputNodeState) : InputNodeState :=
  { s with rsStatus := "paused" }

/-- An arbitrary sequence of `resume()` (`true`) and `pause()` (`false`)
calls on an input node. -/
def inputApplyOps (s : InputNodeState) (ops : List Bool) : InputNodeState :=
  ops.foldl (fun st op => if op then inputResume st else inputPause st) s

/-- `trigger(data)` of the input node: `s.emit("data", data)` on the shared
event emitter closure (`EventEmitter.ts`), so every handler subscribed to
`"data"` runs with the payload. -/
def inputTrigger (ls : String → List Nat) (beh : Nat → String → Option String)
    (data : String) : EmitTrace :=
  emitEvent ls beh "data" data

/-! ### Helper lemmas about `List.set` and the `Promise.all` join -/

theorem getElem?_set_ite {α : Type} (l : List α) (i j : Nat) (a : α) :
    (l.set i a)[j]? = if i = j then if i < l.length then some a else none else l[j]? := by
  split <;> rename_i h
  · subst h
    rw [List.getElem?_set_self']
    by_cases hl : i < l.length
    · simp [hl, List.getElem?_eq_getElem hl, Function.const]
    · simp [List.getElem?_eq_none (Nat.le_of_not_lt hl), hl]
  · rw [List.getElem?_set_ne h]

theorem foldl_set_length {α : Type} (f : Nat → α) (order : List Nat)
    (acc : List (Option α)) :
    (order.foldl (fun a i => a.set i (some (f i))) acc).length = acc.length := by
  induction order generalizing acc with
  | nil => rfl
  | cons i rest ih =>
      simp only [List.foldl_cons]
      rw [ih, List.length_set]

theorem foldl_set_getElem? {α : Type} (f : Nat → α) (order : List Nat)
    (acc : List (Option α)) (k : Nat) :
    (order.foldl (fun a i => a.set i (some (f i))) acc)[k]? =
      if k ∈ order ∧ k < acc.length then some (some (f k)) else acc[k]? := by
  induction order generalizing acc with
  | nil => simp
  | cons i rest ih =>
      simp only [List.foldl_cons]
      rw [ih, List.length_set]
      by_cases h1 : k ∈ rest ∧ k < acc.length
      · have h2 : k ∈ i :: rest ∧ k < acc.length :=
          ⟨List.mem_cons_of_mem _ h1.1, h1.2⟩
        rw [if_pos h1, if_pos h2]
      · rw [if_neg h1, getElem?_set_ite]
        by_cases h2 : i = k
        · subst h2
          by_cases h3 : i < acc.length
          · have h4 : i ∈ i :: rest ∧ i < acc.length := ⟨List.mem_cons_self i rest, h3⟩
            rw [if_pos rfl, if_pos h3, if_pos h4]
          · rw [if_pos rfl, if_neg h3,
              if_neg (fun h => h3 h.2),
              List.getElem?_eq_none (Nat.le_of_not_lt h3)]
        · rw [if_neg h2]
          have h3 : ¬(k ∈ i :: rest ∧ k < acc.length) := by
            rintro ⟨hmem, hlen⟩
            rcases List.mem_cons.mp hmem with h | h
            · exact h2 h.symm
            · exact h1 ⟨h, hlen⟩
          rw [if_neg h3]

theorem promiseAllJoin_length {α : Type} (n : Nat) (f : Nat → α) (order : List Nat) :
    (promiseAllJoin n f order).length = n := by
  unfold promiseAllJoin
  rw [foldl_set_length, List.length_replicate]

theorem promiseAllJoin_getElem? {α : Type} (n : Nat) (f : Nat → α) (order : List Nat)
    (k : Nat) (hk : k < n) (hmem : k ∈ order) :
    (promiseAllJoin n f order)[k]? = some (some (f k)) := by
  unfold promiseAllJoin
  rw [foldl_set_getElem?]
  rw [if_pos ⟨hmem, by simpa using hk⟩]

theorem dispatchOne_tool_use_id (tools : String → Option ToolHandler) (tc : ToolCall) :
    (dispatchOne tools tc).tool_use_id = tc.id := by
  unfold dispatchOne
  split
  · rfl
  · split <;> rfl

theorem dispatch_length (tools : String → Option ToolHandler) (toolCalls : List ToolCall) :
    (dispatch tools toolCalls).length = toolCalls.length := by
  unfold dispatch
  rw [List.length_map]

theorem dispatch_getD (tools : String → Option ToolHandler) (toolCalls : List ToolCall)
    (k : Nat) (hk : k < toolCalls.length) :
    (dispatch tools toolCalls).getD k default =
      dispatchOne tools (toolCalls.getD k default) := by
  unfold dispatch
  rw [List.getD_eq_getElem?_getD, List.getElem?_map,
    List.getElem?_eq_getElem hk, List.getD_eq_getElem?_getD,
    List.getElem?_eq_getElem hk]
  rfl

/-- C1.  For every batch of `N` tool calls dispatched by the tool
dispatcher (`toolRouter.ts` input handler, and likewise `executeTools` of
the agent loop, whose `Promise.all(toolCalls.map ...)` body is identical),
the produced result array has length `N` and `results[k].tool_use_id =
toolCalls[k].id` for every `k < N`, regardless of the completion order of
the individual handlers: under any completion schedule `order` in which
every call eventually completes, the assembled array equals the in-order
`dispatch`, whose `k`-th result carries the `k`-th call's id. -/
theorem tool_dispatch_preserves_order (tools : String → Option ToolHandler)
    (toolCalls : List ToolCall) (order : List Nat)
    (hcov : ∀ i, i < toolCalls.length → i ∈ order) :
    dispatchScheduled tools toolCalls order = (dispatch tools toolCalls).map some ∧
    (dispatch tools toolCalls).length = toolCalls.length ∧
    ∀ k, k < toolCalls.length →
      ((dispatch tools toolCalls).getD k default).tool_use_id =
        (toolCalls.getD k default).id := by
  refine ⟨?_, dispatch_length tools toolCalls, ?_⟩
  · apply List.ext_getElem?
    intro k
    by_cases hk : k < toolCalls.length
    · rw [dispatchScheduled, promiseAllJoin_getElem? _ _ _ _ hk (hcov k hk),
        List.getElem?_map]
      unfold dispatch
      rw [List.getElem?_map, List.getElem?_eq_getElem hk]
      simp only [Option.map_some']
      rw [List.getD_eq_getElem?_getD, List.getElem?_eq_getElem hk]
      rfl
    · have h1 : (dispatchScheduled tools toolCalls order).length ≤ k := by
        rw [dispatchScheduled, promiseAllJoin_length]
        exact Nat.le_of_not_lt hk
      have h2 : ((dispatch tools toolCalls).map some).length ≤ k := by
        rw [List.length_map, dispatch_length]
        exact Nat.le_of_not_lt hk
      rw [List.getElem?_eq_none h1, List.getElem?_eq_none h2]
  · intro k hk
    rw [dispatch_getD tools toolCalls k hk, dispatchOne_tool_use_id]

/-- Witness for C1 at a concrete two-call batch whose completion schedule
is reversed (call 1 finishes before call 0). -/
theorem tool_dispatch_preserves_order_witness :
    (∀ i, i < ([⟨"id1", "a", Json.null⟩, ⟨"id2", "b", Json.null⟩] : List ToolCall).length →
      i ∈ [1, 0]) ∧
    (dispatchScheduled (fun _ => none) [⟨"id1", "a", Json.null⟩, ⟨"id2", "b", Json.null⟩]
        [1, 0] =
      (dispatch (fun _ => none) [⟨"id1", "a", Json.null⟩, ⟨"id2", "b", Json.null⟩]).map
        some ∧
    (dispatch (fun _ => none) [⟨"id1", "a", Json.null⟩, ⟨"id2", "b", Json.null⟩]).length =
      ([⟨"id1", "a", Json.null⟩, ⟨"id2", "b", Json.null⟩] : List ToolCall).length ∧
    ∀ k, k < ([⟨"id1", "a", Json.null⟩, ⟨"id2", "b", Json.null⟩] : List ToolCall).length →
      ((dispatch (fun _ => none)
          [⟨"id1", "a", Json.null⟩, ⟨"id2", "b", Json.null⟩]).getD k default).tool_use_id =
        (([⟨"id1", "a", Json.null⟩, ⟨"id2", "b", Json.null⟩] : List ToolCall).getD
          k default).id) :=
  ⟨by decide,
   tool_dispatch_preserves_order (fun _ => none)
     [⟨"id1", "a", Json.null⟩, ⟨"id2", "b", Json.null⟩] [1, 0] (by decide)⟩

/-! ### Helper lemmas about the conversation store -/

theorem splice_length {α : Type} (l : List α) (s c : Nat) :
    (splice l s c).length = min s l.length + (l.length - (s + c)) := by
  simp [splice]

theorem splice_cons_one {α : Type} (a : α) (t : List α) (c : Nat) :
    splice (a :: t) 1 c = a :: t.drop c := by
  simp [splice, List.drop_succ_cons, Nat.add_comm 1 c]

theorem addMessage_length_le (set : MemoryConfig) (m : Nat)
    (hm : set.maxMessages = some m) (hpos : 0 < m) (msgs : List Message)
    (hlen : msgs.length ≤ m) (msg : Message) :
    (addMessage set msgs msg).length ≤ m := by
  simp only [addMessage, hm]
  split <;> rename_i hc
  · have hlen' : (msgs ++ [msg]).length = msgs.length + 1 := by
      simp
    rw [splice_length]
    rcases hc with ⟨-, hlt⟩
    rw [hlen'] at hlt ⊢
    split <;> omega
  · rw [Decidable.not_and_iff_or_not] at hc
    rcases hc with h | h
    · omega
    · simp only [List.length_append, List.length_singleton] at h ⊢
      omega

theorem addMessage_head_system (set : MemoryConfig) (sysM : Message)
    (hrole : sysM.role = Role.system) (msgs : List Message)
    (h : msgs.head? = some sysM) (m : Message) :
    (addMessage set msgs m).head? = some sysM := by
  obtain ⟨t, rfl⟩ : ∃ t, msgs = sysM :: t := by
    cases msgs with
    | nil => cases h
    | cons a t => exact ⟨t, by rw [Option.some_inj.mp h]⟩
  have hbeq : (Role.system == Role.system) = true := rfl
  have hsf : hasSystemFirst (sysM :: (t ++ [m])) = true := by
    simp [hasSystemFirst, hrole, hbeq]
  simp only [addMessage, List.cons_append, hsf, if_true]
  cases set.maxMessages with
  | none => rfl
  | some mx =>
      dsimp only
      by_cases hc : mx ≠ 0 ∧ mx < (sysM :: (t ++ [m])).length
      · rw [if_pos hc, splice_cons_one]
        rfl
      · rw [if_neg hc]
        rfl

theorem addMessages_length_le (set : MemoryConfig) (m : Nat)
    (hm : set.maxMessages = some m) (hpos : 0 < m) (init : List Message)
    (hinit : init.length ≤ m) (adds : List Message) :
    (addMessages set init adds).length ≤ m := by
  induction adds generalizing init with
  | nil => exact hinit
  | cons a rest ih =>
      exact ih (addMessage set init a) (addMessage_length_le set m hm hpos init hinit a)

theorem addMessages_head_system (set : MemoryConfig) (sysM : Message)
    (hrole : sysM.role = Role.system) (init : List Message)
    (hinit : init.head? = some sysM) (adds : List Message) :
    (addMessages set init adds).head? = some sysM := by
  induction adds generalizing init with
  | nil => exact hinit
  | cons a rest ih =>
      exact ih (addMessage set init a)
        (addMessage_head_system set sysM hrole init hinit a)

theorem memoryInit_length_le_one (set : MemoryConfig) : (memoryInit set).length ≤ 1 := by
  unfold memoryInit
  cases configuredSystemPrompt set <;> simp

theorem memoryInit_head (set : MemoryConfig) (sp : String)
    (hsp : configuredSystemPrompt set = some sp) :
    (memoryInit set).head? = some ⟨Role.system, .str sp⟩ := by
  unfold memoryInit
  rw [hsp]
  rfl

/-- C3.  For every memory node configured with a positive `maxMessages`
bound `m`, after any sequence of `addMessage` calls the number of stored
messages never exceeds `m`, and if a (truthy) system prompt was configured
at construction the first stored message is always that system message. -/
theorem memory_retention_invariant (set : MemoryConfig) (m : Nat)
    (hm : set.maxMessages = some m) (hpos : 0 < m) (adds : List Message) :
    (addMessages set (memoryInit set) adds).length ≤ m ∧
    ∀ sp, configuredSystemPrompt set = some sp →
      (addMessages set (memoryInit set) adds).head? =
        some ⟨Role.system, .str sp⟩ := by
  constructor
  · exact addMessages_length_le set m hm hpos (memoryInit set)
      (le_trans (memoryInit_length_le_one set) hpos) adds
  · intro sp hsp
    exact addMessages_head_system set ⟨Role.system, .str sp⟩ rfl (memoryInit set)
      (memoryInit_head set sp hsp) adds

/-- Witness for C3: bound 2, system prompt "sys", three appended user
messages. -/
theorem memory_retention_invariant_witness :
    (⟨some 2, some "sys"⟩ : MemoryConfig).maxMessages = some 2 ∧ 0 < 2 ∧
    ((addMessages ⟨some 2, some "sys"⟩ (memoryInit ⟨some 2, some "sys"⟩)
        [⟨Role.user, .str "a"⟩, ⟨Role.user, .str "b"⟩, ⟨Role.user, .str "c"⟩]).length ≤ 2 ∧
      ∀ sp, configuredSystemPrompt ⟨some 2, some "sys"⟩ = some sp →
        (addMessages ⟨some 2, some "sys"⟩ (memoryInit ⟨some 2, some "sys"⟩)
            [⟨Role.user, .str "a"⟩, ⟨Role.user, .str "b"⟩,
              ⟨Role.user, .str "c"⟩]).head? = some ⟨Role.system, .str sp⟩) :=
  ⟨rfl, by decide,
   memory_retention_invariant ⟨some 2, some "sys"⟩ 2 rfl (by decide)
     [⟨Role.user, .str "a"⟩, ⟨Role.user, .str "b"⟩, ⟨Role.user, .str "c"⟩]⟩

theorem clear_length_le_one (msgs : List Message) : (clear msgs).length ≤ 1 := by
  unfold clear
  cases msgs.head? with
  | none => simp
  | some m =>
      dsimp only
      by_cases hr : m.role = Role.system
      · rw [if_pos hr]
        rfl
      · rw [if_neg hr]
        simp

/-- C7 counterexample.  On a store constructed WITHOUT a system prompt, a
caller can `addMessage` a system-role message; it lands at index 0, and
`clear()` then re-inserts it, so `getMessages()` after `clear()` is not the
empty list the claim requires. -/
theorem clear_no_system_prompt_counterexample :
    clear (addMessage ⟨none, none⟩ (memoryInit ⟨none, none⟩)
        ⟨Role.system, .str "injected"⟩) ≠ [] ∧
    clear (addMessage ⟨none, none⟩ (memoryInit ⟨none, none⟩)
        ⟨Role.system, .str "injected"⟩) = [⟨Role.system, .str "injected"⟩] := by
  constructor
  · decide
  · decide

/-- C7 (amended).  Immediately after `clear()`, the store holds at most one
message: exactly the configured system message when a (truthy) system
prompt was configured at construction; with no configured system prompt it
is empty unless a system-role message added through `addMessage` occupies
index 0, in which case exactly that message is retained. -/
theorem clear_result (set : MemoryConfig) (adds : List Message) :
    (∀ sp, configuredSystemPrompt set = some sp →
      clear (addMessages set (memoryInit set) adds) = [⟨Role.system, .str sp⟩]) ∧
    (clear (addMessages set (memoryInit set) adds)).length ≤ 1 ∧
    (configuredSystemPrompt set = none →
      clear (addMessages set (memoryInit set) adds) = [] ∨
      ∃ m, (addMessages set (memoryInit set) adds).head? = some m ∧
        m.role = Role.system ∧
        clear (addMessages set (memoryInit set) adds) = [m]) := by
  refine ⟨?_, clear_length_le_one _, ?_⟩
  · intro sp hsp
    have hhead := addMessages_head_system set ⟨Role.system, .str sp⟩ rfl
      (memoryInit set) (memoryInit_head set sp hsp) adds
    unfold clear
    rw [hhead]
    rfl
  · intro _
    cases hh : (addMessages set (memoryInit set) adds).head? with
    | none =>
        left
        unfold clear
        rw [hh]
    | some m =>
        by_cases hr : m.role = Role.system
        · right
          refine ⟨m, rfl, hr, ?_⟩
          unfold clear
          rw [hh]
          dsimp only
          rw [if_pos hr]
        · left
          unfold clear
          rw [hh]
          dsimp only
          rw [if_neg hr]

/-- Witness for C7 at a store configured with system prompt "sys" and one
appended user message. -/
theorem clear_result_witness :
    clear (addMessages ⟨none, some "sys"⟩ (memoryInit ⟨none, some "sys"⟩)
        [⟨Role.user, .str "a"⟩]) = [⟨Role.system, .str "sys"⟩] :=
  (clear_result ⟨none, some "sys"⟩ [⟨Role.user, .str "a"⟩]).1 "sys" rfl

/-! ### Event-channel isolation -/

theorem emitEvent_foldl (ls : String → List Nat) (beh : Nat → String → Option String)
    (event data : String) (hs : List Nat) (tr0 : EmitTrace) :
    hs.foldl
      (fun tr h =>
        match beh h data with
        | none => { tr with ran := tr.ran ++ [(event, h, data)] }
        | some err =>
            let etr := runErrorHandlers ls beh err
            { ran := tr.ran ++ (event, h, data) :: etr.ran
              consoleLogged := tr.consoleLogged ++ etr.consoleLogged })
      tr0 =
    { ran := tr0.ran ++ hs.flatMap (fun h =>
        (event, h, data) ::
          match beh h data with
          | none => []
          | some err => (ls "error").map (fun g => ("error", g, err)))
      consoleLogged := tr0.consoleLogged ++ hs.flatMap (fun h =>
        match beh h data with
        | none => []
        | some err => (ls "error").filterMap (fun g => beh g err)) } := by
  induction hs generalizing tr0 with
  | nil => simp
  | cons h rest ih =>
      rw [List.foldl_cons, ih]
      cases hbeh : beh h data with
      | none => simp [hbeh, runErrorHandlers]
      | some err => simp [hbeh, runErrorHandlers]

/-- C4 (amended).  For the shared `eventEmitter` primitive
(`EventEmitter.ts`), publishing an event runs EVERY registered handler in
registration order even when some throw: each throw from a non-`error`
event re-publishes the exception on the `error` event (all error handlers
run with it), a throw from an `error` handler is only logged via
`console.error`, and nothing is re-raised to the publisher.  (The inline
`emit` of the node objects, e.g. `memory.ts` lines 73–77, does NOT have
this isolation — see the counterexample.) -/
theorem event_channel_isolation (ls : String → List Nat)
    (beh : Nat → String → Option String) (event data : String)
    (hne : event ≠ "error") :
    (emitEvent ls beh event data).ran = (ls event).flatMap (fun h =>
      (event, h, data) ::
        match beh h data with
        | none => []
        | some err => (ls "error").map (fun g => ("error", g, err))) ∧
    (emitEvent ls beh event data).consoleLogged = (ls event).flatMap (fun h =>
      match beh h data with
      | none => []
      | some err => (ls "error").filterMap (fun g => beh g err)) ∧
    emitEvent ls beh "error" data =
      { ran := (ls "error").map (fun h => ("error", h, data))
        consoleLogged := (ls "error").filterMap (fun h => beh h data) } := by
  have hmain : emitEvent ls beh event data =
      { ran := (ls event).flatMap (fun h =>
          (event, h, data) ::
            match beh h data with
            | none => []
            | some err => (ls "error").map (fun g => ("error", g, err)))
        consoleLogged := (ls event).flatMap (fun h =>
          match beh h data with
          | none => []
          | some err => (ls "error").filterMap (fun g => beh g err)) } := by
    rw [emitEvent, if_neg hne, emitEvent_foldl]
    simp
  refine ⟨by rw [hmain], by rw [hmain], ?_⟩
  rw [emitEvent, if_pos rfl]

/-- Witness for C4's amended theorem: event `"data"` with handlers 1 (which
throws "boom") and 2, and error handler 9; both 2 and 9 run. -/
theorem event_channel_isolation_witness :
    ("data" : String) ≠ "error" ∧
    (emitEvent (fun e => if e = "data" then [1, 2] else if e = "error" then [9] else [])
        (fun h _ => if h = 1 then some "boom" else none) "data" "x").ran =
      [("data", 1, "x"), ("error", 9, "boom"), ("data", 2, "x")] :=
  ⟨by decide,
   by
    have h := (event_channel_isolation
      (fun e => if e = "data" then [1, 2] else if e = "error" then [9] else [])
      (fun h _ => if h = 1 then some "boom" else none) "data" "x" (by decide)).1
    rw [h]
    decide⟩

/-- C4 counterexample.  The node-local inline `emit` (`memory.ts` lines
73–77) has no try/catch: with handlers 1 and 2 registered for `"data"` and
error handler 9 registered for `"error"`, when handler 1 throws, neither
sibling handler 2 nor error handler 9 ever runs, and the exception
propagates to the publisher instead of being re-published on `"error"` —
refuting the claim that isolation applies to any subscriber on any
component. -/
theorem node_emit_not_isolated_counterexample :
    (nodeEmit (fun e => if e = "data" then [1, 2] else if e = "error" then [9] else [])
        (fun h _ => if h = 1 then some "boom" else none) "data" "x").1.map Prod.fst =
      [1] ∧
    2 ∉ ((nodeEmit (fun e => if e = "data" then [1, 2] else if e = "error" then [9] else [])
        (fun h _ => if h = 1 then some "boom" else none) "data" "x").1.map Prod.fst) ∧
    (nodeEmit (fun e => if e = "data" then [1, 2] else if e = "error" then [9] else [])
        (fun h _ => if h = 1 then some "boom" else none) "data" "x").2 = some "boom" := by
  refine ⟨by decide, by decide, by decide⟩

/-! ### Agent-loop iteration cap -/

theorem agentLoopAux_all_tool_use (model : Nat → List Message → LLMResponse)
    (tools : String → Option ToolHandler) (maxIterations : Nat)
    (h : ∀ n msgs, (model n msgs).stopReason = "tool_use" ∧
      (model n msgs).toolCalls ≠ []) :
    ∀ remaining iteration calls msgs,
      agentLoopAux model tools maxIterations remaining iteration calls msgs =
        ⟨.maxIterationsError
            ("Max iterations (" ++ toString maxIterations ++ ") reached"),
          calls + remaining⟩ := by
  intro remaining
  induction remaining with
  | zero =>
      intro iteration calls msgs
      rfl
  | succ r ih =>
      intro iteration calls msgs
      rw [agentLoopAux]
      have hc := h calls msgs
      rw [if_neg (by
        rintro (hsr | htc)
        · exact hsr hc.1
        · exact hc.2 htc)]
      rw [ih]
      have harith : calls + 1 + r = calls + (r + 1) := by omega
      rw [harith]

/-- C2.  With `maxIterations` configured to `M ≥ 1` (the `|| 10` default
does not kick in), when every model call returns stop reason `tool_use`
with a non-empty tool-call list, the agent loop makes exactly `M` model
calls — never an `(M+1)`-th — and then fails with the error message
`"Max iterations (M) reached"`. -/
theorem agent_loop_iteration_cap (model : Nat → List Message → LLMResponse)
    (tools : String → Option ToolHandler) (M : Nat) (hM : 1 ≤ M)
    (h : ∀ n msgs, (model n msgs).stopReason = "tool_use" ∧
      (model n msgs).toolCalls ≠ [])
    (msgs0 : List Message) :
    configMaxIterations (some M) = M ∧
    agentLoopRun model tools (configMaxIterations (some M)) msgs0 =
      ⟨.maxIterationsError ("Max iterations (" ++ toString M ++ ") reached"), M⟩ := by
  have hcfg : configMaxIterations (some M) = M := by
    show (if M = 0 then 10 else M) = M
    rw [if_neg (by omega)]
  refine ⟨hcfg, ?_⟩
  rw [hcfg]
  unfold agentLoopRun
  rw [agentLoopAux_all_tool_use model tools M h M 0 0 msgs0]
  rw [Nat.zero_add]

/-- Witness for C2 at `M = 3`: a model that always requests one tool call
leads to exactly 3 model calls and the message "Max iterations (3)
reached". -/
theorem agent_loop_iteration_cap_witness :
    (1 : Nat) ≤ 3 ∧
    (∀ n msgs,
      ((fun (_ : Nat) (_ : List Message) =>
          (⟨[ContentBlock.tool_use "i" "t" Json.null], [⟨"i", "t", Json.null⟩],
            "tool_use"⟩ : LLMResponse)) n msgs).stopReason = "tool_use" ∧
      ((fun (_ : Nat) (_ : List Message) =>
          (⟨[ContentBlock.tool_use "i" "t" Json.null], [⟨"i", "t", Json.null⟩],
            "tool_use"⟩ : LLMResponse)) n msgs).toolCalls ≠ []) ∧
    agentLoopRun
        (fun (_ : Nat) (_ : List Message) =>
          (⟨[ContentBlock.tool_use "i" "t" Json.null], [⟨"i", "t", Json.null⟩],
            "tool_use"⟩ : LLMResponse))
        (fun _ => none) (configMaxIterations (some 3)) [] =
      ⟨.maxIterationsError "Max iterations (3) reached", 3⟩ := by
  refine ⟨by decide, fun n msgs => ⟨rfl, List.cons_ne_nil _ _⟩, ?_⟩
  have h2 := (agent_loop_iteration_cap
    (fun (_ : Nat) (_ : List Message) =>
      (⟨[ContentBlock.tool_use "i" "t" Json.null], [⟨"i", "t", Json.null⟩],
        "tool_use"⟩ : LLMResponse))
    (fun _ => none) 3 (by decide) (fun n msgs => ⟨rfl, List.cons_ne_nil _ _⟩) []).2
  rw [h2]
  rfl

/-! ### Tool-dispatch error handling -/

theorem extractText_single (t : String) : extractText [.text t] = t := rfl

/-- A two-turn model: the first call requests the single tool call `tc`,
the second call finishes with text `final` and stop reason `end_turn`
(the shape of the spec's Scenario D). -/
def scenarioModel (tc : ToolCall) (final : String) : Nat → List Message → LLMResponse
  | 0, _ => ⟨[.tool_use tc.id tc.name tc.input], [tc], "tool_use"⟩
  | _ + 1, _ => ⟨[.text final], [], "end_turn"⟩

/-- C5.  For every dispatched tool call: with no handler registered under
the call's name the result is `is_error: true` naming the missing tool;
with a handler that throws, the result is `is_error: true` with content
`"Error: " ++ message`; with a handler that succeeds, the content is the
returned string unchanged, or the JSON serialization of a non-string, with
no `is_error` flag — and the agent loop still proceeds, feeding the error
content to the next model call (Scenario D). -/
theorem tool_dispatch_error_handling (tools : String → Option ToolHandler)
    (toolCalls : List ToolCall) (k : Nat) (hk : k < toolCalls.length) :
    (tools (toolCalls.getD k default).name = none →
      (dispatch tools toolCalls).getD k default =
        ⟨(toolCalls.getD k default).id,
          "Error: Tool \"" ++ (toolCalls.getD k default).name ++ "\" not found",
          some true⟩) ∧
    (∀ handler msg, tools (toolCalls.getD k default).name = some handler →
      handler (toolCalls.getD k default).input = .error msg →
      (dispatch tools toolCalls).getD k default =
        ⟨(toolCalls.getD k default).id, "Error: " ++ msg, some true⟩) ∧
    (∀ handler s, tools (toolCalls.getD k default).name = some handler →
      handler (toolCalls.getD k default).input = .ok (.str s) →
      (dispatch tools toolCalls).getD k default =
        ⟨(toolCalls.getD k default).id, s, none⟩) ∧
    (∀ handler v, tools (toolCalls.getD k default).name = some handler →
      handler (toolCalls.getD k default).input = .ok v → (∀ s, v ≠ .str s) →
      (dispatch tools toolCalls).getD k default =
        ⟨(toolCalls.getD k default).id, Json.stringify v, none⟩) ∧
    (∀ (tc : ToolCall) (handler : ToolHandler) (msg final : String),
      tools tc.name = some handler → handler tc.input = .error msg →
      agentLoopRun (scenarioModel tc final) tools (configMaxIterations (some 2)) [] =
        ⟨.success final
          [⟨Role.assistant, .blocks [.tool_use tc.id tc.name tc.input]⟩,
            ⟨Role.user, .blocks [.tool_result tc.id ("Error: " ++ msg) (some true)]⟩,
            ⟨Role.assistant, .blocks [.text final]⟩]
          2 "end_turn", 2⟩) := by
  rw [dispatch_getD tools toolCalls k hk]
  refine ⟨?_, ?_, ?_, ?_, ?_⟩
  · intro hno
    unfold dispatchOne
    rw [hno]
  · intro handler msg htool herr
    unfold dispatchOne
    rw [htool]
    dsimp only
    rw [herr]
  · intro handler s htool hok
    unfold dispatchOne
    rw [htool]
    dsimp only
    rw [hok]
  · intro handler v htool hok hnstr
    unfold dispatchOne
    rw [htool]
    dsimp only
    rw [hok]
    dsimp only
    cases v with
    | str s => exact absurd rfl (hnstr s)
    | num n => rfl
    | bool b => rfl
    | null => rfl
    | arr items => rfl
    | obj fields => rfl
  · intro tc handler msg final htool herr
    have hone : dispatchOne tools tc = ⟨tc.id, "Error: " ++ msg, some true⟩ := by
      unfold dispatchOne
      rw [htool]
      dsimp only
      rw [herr]
    have hcfg : configMaxIterations (some 2) = 2 := rfl
    rw [hcfg]
    unfold agentLoopRun
    rw [agentLoopAux]
    simp only [scenarioModel]
    rw [if_neg (by
      rintro (hsr | htc2)
      · exact hsr rfl
      · exact List.cons_ne_nil _ _ htc2)]
    simp only [dispatch, List.map_cons, List.map_nil, hone, toolResultBlocks]
    rw [agentLoopAux]
    simp only [scenarioModel]
    rw [if_pos (Or.inl (by decide))]
    simp [extractText_single]

/-- Witness for C5: a missing tool, a throwing handler, a string-returning
handler, a number-returning handler, and the Scenario D loop run. -/
theorem tool_dispatch_error_handling_witness :
    (dispatch (fun _ => none) [⟨"a", "missing", Json.null⟩]).getD 0 default =
      ⟨"a", "Error: Tool \"missing\" not found", some true⟩ ∧
    (dispatch (fun n => if n = "boom" then some (fun _ => Except.error "fail") else none)
        [⟨"b", "boom", Json.null⟩]).getD 0 default =
      ⟨"b", "Error: fail", some true⟩ ∧
    (dispatch (fun n => if n = "greet" then some (fun _ => Except.ok (.str "hi")) else none)
        [⟨"c", "greet", Json.null⟩]).getD 0 default =
      ⟨"c", "hi", none⟩ ∧
    (dispatch (fun n => if n = "calc" then some (fun _ => Except.ok (.num 5)) else none)
        [⟨"d", "calc", Json.null⟩]).getD 0 default =
      ⟨"d", Json.stringify (.num 5), none⟩ ∧
    agentLoopRun (scenarioModel ⟨"b", "boom", Json.null⟩ "done")
        (fun n => if n = "boom" then some (fun _ => Except.error "fail") else none)
        (configMaxIterations (some 2)) [] =
      ⟨.success "done"
        [⟨Role.assistant, .blocks [.tool_use "b" "boom" Json.null]⟩,
          ⟨Role.user, .blocks [.tool_result "b" "Error: fail" (some true)]⟩,
          ⟨Role.assistant, .blocks [.text "done"]⟩]
        2 "end_turn", 2⟩ :=
  ⟨(tool_dispatch_error_handling (fun _ => none) [⟨"a", "missing", Json.null⟩] 0
      (by decide)).1 rfl,
   (tool_dispatch_error_handling
      (fun n => if n = "boom" then some (fun _ => Except.error "fail") else none)
      [⟨"b", "boom", Json.null⟩] 0 (by decide)).2.1
      (fun _ => Except.error "fail") "fail" rfl rfl,
   (tool_dispatch_error_handling
      (fun n => if n = "greet" then some (fun _ => Except.ok (.str "hi")) else none)
      [⟨"c", "greet", Json.null⟩] 0 (by decide)).2.2.1
      (fun _ => Except.ok (.str "hi")) "hi" rfl rfl,
   (tool_dispatch_error_handling
      (fun n => if n = "calc" then some (fun _ => Except.ok (.num 5)) else none)
      [⟨"d", "calc", Json.null⟩] 0 (by decide)).2.2.2.1
      (fun _ => Except.ok (.num 5)) (.num 5) rfl rfl
      (fun s h => nomatch h),
   (tool_dispatch_error_handling
      (fun n => if n = "boom" then some (fun _ => Except.error "fail") else none)
      [⟨"b", "boom", Json.null⟩] 0 (by decide)).2.2.2.2
      ⟨"b", "boom", Json.null⟩ (fun _ => Except.error "fail") "fail" "done"
      rfl rfl⟩

/-! ### Graph-compiler wiring of list-valued in entries -/

/-- C6.  In `compile`, `typeof value === "object"` is true for arrays as
well, so a list-valued `in` entry first enters the single-edge branch with
`value.node` and `value.out` both `undefined`; `nodes[undefined]` is
`undefined` and `transformEvent` crashes at `outputNode.pipe(s)` before the
dedicated `Array.isArray` branch can wire anything.  A single edge wires
fine; the same edge inside a one-element list makes `compile` throw. -/
theorem compile_list_in_entry_crashes :
    wireInEntry ["a", "b"] "b" "data" (.single ⟨"a", "data"⟩) =
      .ok [⟨"b", "data", "a", some "data"⟩] ∧
    wireInEntry ["a", "b"] "b" "data" (.list [⟨"a", "data"⟩]) =
      .error "TypeError: Cannot read properties of undefined (reading pipe)" := by
  constructor
  · rfl
  · rfl

/-! ### Anthropic system-message extraction -/

/-- The last system-role message of a list (later system messages override
earlier ones, mirroring the repeated assignment in the filter callback). -/
def lastSystemMessage : List Message → Option Message
  | [] => none
  | m :: t =>
      match lastSystemMessage t with
      | some s => some s
      | none => if m.role = Role.system then some m else none

theorem anthropicFilterMessages_foldl (messages : List Message)
    (acc : List Message × Option String) :
    messages.foldl
      (fun acc m =>
        if m.role = Role.system then (acc.1, some (extractSystemText m.content))
        else (acc.1 ++ [m], acc.2))
      acc =
    (acc.1 ++ messages.filter (fun m => !(m.role == Role.system)),
      match lastSystemMessage messages with
      | some m => some (extractSystemText m.content)
      | none => acc.2) := by
  induction messages generalizing acc with
  | nil => simp [lastSystemMessage]
  | cons m t ih =>
      rw [List.foldl_cons, ih]
      by_cases hr : m.role = Role.system
      · have hb : (m.role == Role.system) = true := by
          rw [hr]
          rfl
        rw [if_pos hr]
        simp only [List.filter_cons, hb, Bool.not_true, lastSystemMessage]
        cases lastSystemMessage t with
        | none => simp [hr]
        | some s => simp
      · have hb : (m.role == Role.system) = false := by
          cases hmr : m.role with
          | user => rfl
          | assistant => rfl
          | system => exact absurd hmr hr
        rw [if_neg hr]
        simp only [List.filter_cons, hb, Bool.not_false, lastSystemMessage]
        cases lastSystemMessage t with
        | none => simp [hr]
        | some s => simp

/-- C9 counterexample.  With two system messages whose last has content
`""`, the extracted prompt is `""`, which is falsy, so the request body's
`system` field is omitted instead of equalling the content of the last
system message. -/
theorem anthropic_system_field_empty_counterexample :
    (callAnthropicRequest [⟨Role.system, .str "a"⟩, ⟨Role.system, .str ""⟩]).2 ≠
      some "" ∧
    (callAnthropicRequest [⟨Role.system, .str "a"⟩, ⟨Role.system, .str ""⟩]).2 =
      none ∧
    (anthropicFilterMessages [⟨Role.system, .str "a"⟩, ⟨Role.system, .str ""⟩]).2 =
      some "" := by
  refine ⟨by decide, by decide, by decide⟩

/-- C9 (amended).  The Anthropic request's `messages` array is exactly the
non-system messages in order (every system-role message is removed,
regardless of position), and the top-level `system` field equals the
extracted content of the LAST system message in list order when that
extracted string is non-empty — when it is the empty string (JS
truthiness) the field is omitted. -/
theorem anthropic_system_extraction (messages : List Message) :
    (callAnthropicRequest messages).1 =
      messages.filter (fun m => !(m.role == Role.system)) ∧
    (callAnthropicRequest messages).2 =
      match lastSystemMessage messages with
      | some m =>
          if extractSystemText m.content = "" then none
          else some (extractSystemText m.content)
      | none => none := by
  have hfold := anthropicFilterMessages_foldl messages ([], none)
  constructor
  · show (anthropicFilterMessages messages).1 = _
    rw [anthropicFilterMessages, hfold]
    rw [List.nil_append]
  · show anthropicSystemField messages = _
    rw [anthropicSystemField, anthropicFilterMessages, hfold]
    cases lastSystemMessage messages with
    | none => rfl
    | some m => rfl

/-! ### Input-node status frame effect -/

theorem emitEvent_ran_mem (ls : String → List Nat) (beh : Nat → String → Option String)
    (event data : String) (hne : event ≠ "error") (h : Nat) (hmem : h ∈ ls event) :
    (event, h, data) ∈ (emitEvent ls beh event data).ran := by
  rw [emitEvent, if_neg hne, emitEvent_foldl]
  dsimp only
  rw [List.nil_append]
  exact List.mem_flatMap.mpr ⟨h, hmem, List.mem_cons_self _ _⟩

theorem inputApplyOps_status (s : InputNodeState) (ops : List Bool) :
    (inputApplyOps s ops).status = s.status := by
  induction ops generalizing s with
  | nil => rfl
  | cons op rest ih =>
      rw [inputApplyOps, List.foldl_cons]
      cases op
      · exact ih (inputPause s)
      · exact ih (inputResume s)

/-- C10.  On a node returned by `input()`, any sequence of `resume()` /
`pause()` calls leaves the observable `status` field at `"paused"` — the
inherited stream methods mutate the inner `readStream` object (`rsStatus`
does change), not the spread copy handed to the caller — while
`trigger(data)` still delivers the payload to every handler subscribed to
`"data"`. -/
theorem input_node_status_frame (ops : List Bool) (ls : String → List Nat)
    (beh : Nat → String → Option String) (data : String) :
    (inputApplyOps inputNew ops).status = "paused" ∧
    (inputResume inputNew).rsStatus = "open" ∧
    (inputResume inputNew).status = "paused" ∧
    ∀ h, h ∈ ls "data" → ("data", h, data) ∈ (inputTrigger ls beh data).ran := by
  refine ⟨?_, rfl, rfl, ?_⟩
  · rw [inputApplyOps_status]
    rfl
  · intro h hmem
    exact emitEvent_ran_mem ls beh "data" data (by decide) h hmem

/-- Witness for C10: resume-pause-resume leaves status `"paused"`, and a
trigger with two subscribed handlers reaches handler 2. -/
theorem input_node_status_frame_witness :
    (inputApplyOps inputNew [true, false, true]).status = "paused" ∧
    ((2 : Nat) ∈ (fun e => if e = "data" then [1, 2] else []) "data" ∧
      ("data", 2, "x") ∈ (inputTrigger (fun e => if e = "data" then [1, 2] else [])
        (fun _ _ => none) "x").ran) :=
  ⟨(input_node_status_frame [true, false, true]
      (fun e => if e = "data" then [1, 2] else []) (fun _ _ => none) "x").1,
   by decide,
   (input_node_status_frame [true, false, true]
      (fun e => if e = "data" then [1, 2] else []) (fun _ _ => none) "x").2.2.2
     2 (by decide)⟩

/-! ### Protocol-adapter round trip -/

/-- C8.  A plain-text message (role plus string content) survives both
providers' conversions with role and text intact: the OpenAI outbound
conversion emits exactly one wire message with the same role string and
the same content; parsing the corresponding OpenAI response shape back
reproduces the text exactly (as an assistant turn with no tool calls);
the Anthropic outbound conversion passes a non-system message through
verbatim (a system message's text moves to the top-level `system` field),
and the Anthropic inbound conversion is the identity on content blocks. -/
theorem message_round_trip (r : Role) (s : String) :
    convertToOpenAIMessages [⟨r, .str s⟩] = [⟨roleToString r, some s, none, none⟩] ∧
    (∀ jsonParse fr,
      ∃ parsed, convertOpenAIResponseToAnthropic jsonParse
          ⟨[⟨⟨some s, none⟩, fr⟩]⟩ = .ok parsed ∧
        extractText parsed.content = s ∧ parsed.toolCalls = []) ∧
    (r ≠ Role.system → callAnthropicRequest [⟨r, .str s⟩] = ([⟨r, .str s⟩], none)) ∧
    (∀ sr, (anthropicParse [.text s] sr).content = [.text s] ∧
      (anthropicParse [.text s] sr).stopReason = sr) ∧
    (r = Role.system → s ≠ "" →
      callAnthropicRequest [⟨r, .str s⟩] = ([], some s)) := by
  refine ⟨rfl, ?_, ?_, fun sr => ⟨rfl, rfl⟩, ?_⟩
  · intro jsonParse fr
    by_cases hs : s = ""
    · subst hs
      exact ⟨⟨[], [], if fr = "tool_calls" then "tool_use" else fr⟩, rfl, rfl, rfl⟩
    · refine ⟨⟨[.text s], [], if fr = "tool_calls" then "tool_use" else fr⟩, ?_,
        extractText_single s, rfl⟩
      unfold convertOpenAIResponseToAnthropic
      rw [List.head?_cons]
      dsimp only
      rw [if_neg hs, List.append_nil]
  · intro hr
    unfold callAnthropicRequest anthropicSystemField anthropicFilterMessages
    rw [List.foldl_cons, if_neg hr, List.foldl_nil]
    simp
  · intro hr hs
    subst hr
    unfold callAnthropicRequest anthropicSystemField anthropicFilterMessages
    rw [List.foldl_cons, if_pos rfl, List.foldl_nil]
    dsimp only [extractSystemText]
    rw [if_neg hs]

/-- Witness for C8 at a user message "hello" (OpenAI wire and Anthropic
passthrough) and a system message "hello" (Anthropic system field). -/
theorem message_round_trip_witness :
    convertToOpenAIMessages [⟨Role.user, .str "hello"⟩] =
      [⟨"user", some "hello", none, none⟩] ∧
    (∃ parsed, convertOpenAIResponseToAnthropic (fun _ => Json.null)
        ⟨[⟨⟨some "hello", none⟩, "stop"⟩]⟩ = .ok parsed ∧
      extractText parsed.content = "hello" ∧ parsed.toolCalls = []) ∧
    callAnthropicRequest [⟨Role.user, .str "hello"⟩] =
      ([⟨Role.user, .str "hello"⟩], none) ∧
    callAnthropicRequest [⟨Role.system, .str "hello"⟩] = ([], some "hello") :=
  ⟨(message_round_trip Role.user "hello").1,
   (message_round_trip Role.user "hello").2.1 (fun _ => Json.null) "stop",
   (message_round_trip Role.user "hello").2.2.1 (by decide),
   (message_round_trip Role.system "hello").2.2.2.2 rfl (by decide)⟩

end TasksModel
